import Mathlib

/-!
Verification development for the sharepoint-mcp repository.

The repository contains two near-identical MCP server variants:
  * `index.js`      — OneDrive variant, OAuth device-code flow, content search.
  * the SharePoint variant (redirect OAuth flow, `set_site_url`, folder structure).

This file gives a shallow embedding of the pure/deterministic logic of both
variants.  Network interaction (axios calls) is abstracted as explicit
environment parameters: a handler body that performs HTTP requests is modelled
as a function supplied from outside, while every guard, validation, scoring,
scanning and traversal step is translated literally from the JavaScript source.
JS strings are modelled as Lean `String` (a wrapper around `List Char`);
`String.prototype.toLowerCase` is modelled with `Char.toLower`;
JS numbers used as epoch milliseconds are modelled as `Int`.
-/

namespace SharePointMCP

/-! ## String helpers mirroring the JavaScript string primitives -/

/-- `needle.isPrefixB hay` : Boolean prefix test on character lists. -/
def isPrefixB : List Char → List Char → Bool
  | [], _ => true
  | _ :: _, [] => false
  | a :: as, b :: bs => a == b && isPrefixB as bs

/-- Boolean substring test on character lists (`hay` contains `needle`),
modelling JS `String.prototype.includes`. -/
def isInfixB (needle : List Char) : List Char → Bool
  | [] => isPrefixB needle []
  | h :: t => isPrefixB needle (h :: t) || isInfixB needle t

/-- JS `hay.includes(sub)`. -/
def containsB (hay sub : String) : Bool := isInfixB sub.data hay.data

/-- JS `s.startsWith(p)`. -/
def startsWithB (s p : String) : Bool := isPrefixB p.data s.data

/-- JS `s.endsWith(p)`. -/
def endsWithB (s p : String) : Bool := isPrefixB p.data.reverse s.data.reverse

/-- JS `s.toLowerCase()` (modelled with `Char.toLower`). -/
def lowerStr (s : String) : String := ⟨s.data.map Char.toLower⟩

/-- JS `s.substring(0, n)` / prefix of length `n`. -/
def strTake (n : Nat) (s : String) : String := ⟨s.data.take n⟩

/-- JS `s.substring(n)` (drop the first `n` characters). -/
def strDrop (n : Nat) (s : String) : String := ⟨s.data.drop n⟩

/-- JS `s.trim()`: strip whitespace from both ends. -/
def trimStr (s : String) : String :=
  ⟨((s.data.dropWhile Char.isWhitespace).reverse.dropWhile Char.isWhitespace).reverse⟩

/-- Helper for `splitLines`: the current chunk is accumulated in reverse;
a chunk terminated by a newline drops one trailing carriage return,
modelling the JS split regex (backslash r)?(backslash n). -/
def chompCR : List Char → List Char
  | '\r' :: r => r
  | l => l

/-- Worker for `splitLines`. -/
def splitLinesGo : List Char → List Char → List String
  | [], cur => [⟨cur.reverse⟩]
  | c :: t, cur =>
    if c = '\n' then (⟨(chompCR cur).reverse⟩ : String) :: splitLinesGo t []
    else splitLinesGo t (c :: cur)

/-- JS `content.split(/CR?LF/)`. -/
def splitLines (s : String) : List String := splitLinesGo s.data []

mutual
/-- Worker for `splitWs`: accumulating a token (in reverse). -/
def splitWsGo : List Char → List Char → List String
  | [], cur => [⟨cur.reverse⟩]
  | c :: t, cur =>
    if Char.isWhitespace c then (⟨cur.reverse⟩ : String) :: splitWsSkip t
    else splitWsGo t (c :: cur)

/-- Worker for `splitWs`: inside a whitespace run. -/
def splitWsSkip : List Char → List String
  | [] => [""]
  | c :: t =>
    if Char.isWhitespace c then splitWsSkip t
    else splitWsGo t [c]
end

/-- JS `s.split(/whitespace+/)`. -/
def splitWs (s : String) : List String := splitWsGo s.data []

/-- Last dot-separated token of a filename: JS `filename.split('.').pop()`. -/
def lastDotTokGo : List Char → List Char → List Char
  | [], cur => cur.reverse
  | c :: t, cur => if c = '.' then lastDotTokGo t [] else lastDotTokGo t (c :: cur)

/-- Lower-cased extension of a filename:
JS `filename.split('.').pop().toLowerCase()`. -/
def extOf (filename : String) : String := lowerStr ⟨lastDotTokGo filename.data []⟩

/-! ## Data model -/

/-- A Graph API drive item as used by the OneDrive variant.
`parentPath` models `parentReference.path`, `driveId` models
`parentReference.driveId`, `lastModifiedDateTime` the ISO timestamp string. -/
structure Item where
  id : String := ""
  name : String := ""
  parentPath : Option String := none
  driveId : Option String := none
  size : Nat := 0
  webUrl : String := ""
  lastModifiedDateTime : Option String := none
  author : Option String := none
  isFolder : Bool := false
deriving DecidableEq

/-- The in-memory token store `this.authTokens` (both variants; the OneDrive
variant has no `siteUrl` field, modelled here as a field that stays `none`).
`expiresAt` is an epoch-milliseconds value. -/
structure TokenState where
  accessToken : Option String := none
  refreshToken : Option String := none
  expiresAt : Option Int := none
  siteUrl : Option String := none
deriving DecidableEq

/-- A tool reply `{content:[{type:"text", text}], isError?}` collapsed to its
single text block and error flag. -/
structure Reply where
  text : String
  isError : Bool
deriving DecidableEq

/-- JS truthiness test used on stored strings: `!x` is true for `undefined`
(`none`) and for the empty string. -/
def tokenFalsy : Option String → Bool
  | none => true
  | some s => s == ""

/-! ## Guard checks (`ensureAuthenticated`, `ensureSiteUrl`)

From `index.js` lines 366-375 and the SharePoint variant lines 323-338.
In JS, `Date.now() >= this.authTokens.expiresAt` coerces a `null`
`expiresAt` to `0`, modelled with `Option.getD 0`. -/

def ensureAuthenticated (st : TokenState) (now : Int) : Except String Unit :=
  if tokenFalsy st.accessToken then
    .error "Not authenticated. Please run \x27authenticate_sharepoint\x27 first."
  else if st.expiresAt.getD 0 ≤ now then
    .error "Access token expired. Please re-authenticate."
  else .ok ()

def ensureSiteUrl (st : TokenState) : Except String Unit :=
  if tokenFalsy st.siteUrl then
    .error "Site URL not set. Please run \x27set_site_url\x27 first."
  else .ok ()

/-! ## `setSiteUrl` (SharePoint variant lines 301-321) -/

def setSiteUrl (st : TokenState) (siteUrl : String) : Except String (Reply × TokenState) :=
  if !(startsWithB siteUrl "https://") || !(containsB siteUrl ".sharepoint.com") then
    .error "Invalid SharePoint URL. Expected format: https://yourtenant.sharepoint.com/sites/yoursite"
  else
    .ok ({ text := "SharePoint site URL set to: " ++ siteUrl, isError := false },
         { st with siteUrl := some siteUrl })

/-! ## `constructFullPath` (`index.js` lines 377-397) -/

/-- Strip the leading `/drive/root:` (regex `/drive/root` with optional
colon) from a parent path. -/
def stripDriveRoot (p : String) : String :=
  if startsWithB p "/drive/root:" then strDrop 12 p
  else if startsWithB p "/drive/root" then strDrop 11 p
  else p

def constructFullPath (item : Item) : String :=
  match item.parentPath with
  | none => "/" ++ item.name
  | some p =>
    if p = "" then "/" ++ item.name
    else
      let parentPath := stripDriveRoot p
      if parentPath = "" then "/" ++ item.name else parentPath ++ "/" ++ item.name

/-! ## File classification helpers (`index.js` lines 399-426, 626-654) -/

def officeExtensions : List String := ["docx", "doc", "xlsx", "xls", "pptx", "ppt", "pdf"]

def isOfficeDocument (filename : String) : Bool :=
  officeExtensions.contains (extOf filename)

def searchableExtensions : List String :=
  ["txt", "md", "js", "jsx", "ts", "tsx", "json", "xml", "html", "htm",
   "css", "scss", "sass", "py", "java", "c", "cpp", "h", "cs", "php",
   "rb", "go", "rs", "sh", "bash", "yml", "yaml", "toml", "ini", "cfg",
   "log", "csv", "sql", "r", "swift", "kt", "dart", "vue", "svelte",
   "docx", "doc", "xlsx", "xls", "pptx", "ppt", "pdf"]

def isSearchableFile (filename : String) (allowedTypes : Option (List String)) : Bool :=
  let ext := extOf filename
  match allowedTypes with
  | some ts =>
    if ts.length > 0 then ts.contains ext && searchableExtensions.contains ext
    else searchableExtensions.contains ext
  | none => searchableExtensions.contains ext

/-- The fixed skip patterns of `shouldSkipFile`, each JS regex translated to
the equivalent anchored/unanchored (case-insensitive where flagged `i`)
string test. -/
def skipPatterns : List (String → Bool) :=
  [ fun s => startsWithB s "~$",
    fun s => startsWithB s ".",
    fun s => endsWithB (lowerStr s) ".tmp",
    fun s => endsWithB (lowerStr s) ".bak",
    fun s => endsWithB (lowerStr s) ".log",
    fun s => containsB (lowerStr s) "node_modules",
    fun s => containsB (lowerStr s) ".git/",
    fun s => endsWithB (lowerStr s) "package-lock.json",
    fun s => endsWithB (lowerStr s) "yarn.lock",
    fun s => endsWithB (lowerStr s) ".min.js",
    fun s => endsWithB (lowerStr s) ".min.css",
    fun s => endsWithB (lowerStr s) ".map",
    fun s => containsB (lowerStr s) ".cache",
    fun s => endsWithB (lowerStr s) "thumbs.db",
    fun s => endsWithB (lowerStr s) ".ds_store" ]

/-- `shouldSkipFile(filename, filepath)`: a pattern fires on the filename, or
on the filepath when the filepath is truthy (non-empty). -/
def shouldSkipFile (filename filepath : String) : Bool :=
  skipPatterns.any fun pat => pat filename || (filepath != "" && pat filepath)

/-! ## Relevance scoring (`getFileRelevanceScore`, `index.js` lines 656-695)

`parseTime` abstracts `new Date(s).getTime()`; `now` abstracts `Date.now()`.
The float comparison `daysSinceModified < d` is the exact integer comparison
`now - t < d * 86400000`. -/

def recencyBonus (parseTime : String → Int) (now : Int) (lm : Option String) : Nat :=
  match lm with
  | none => 0
  | some s =>
    if s = "" then 0
    else
      let t := parseTime s
      (if now - t < 30 * 86400000 then 5 else 0) +
      (if now - t < 7 * 86400000 then 10 else 0)

def getFileRelevanceScore (parseTime : String → Int) (now : Int)
    (file : Item) (query : String) : Nat :=
  let fileName := lowerStr file.name
  let queryLower := lowerStr query
  let queryWords := (splitWs queryLower).filter fun w => 2 < w.length
  let exactScore := if fileName = queryLower then 100 else 0
  let containsScore := if containsB fileName queryLower then 50 else 0
  let wordScore := 10 * (queryWords.filter fun w => containsB fileName w).length
  let filePath := lowerStr (constructFullPath file)
  let pathScore := if containsB filePath queryLower then 20 else 0
  exactScore + containsScore + wordScore + pathScore +
    recencyBonus parseTime now file.lastModifiedDateTime

/-! ## Content scan (`searchFileContent`, `index.js` lines 506-572)

The network part (downloading the file or extracting Office text) is
abstracted away; `scanContent` is the pure scan the function performs once it
holds the content string. -/

/-- One matching line `{lineNumber, content}`. -/
structure MatchLine where
  lineNumber : Nat
  content : String
deriving DecidableEq

/-- Result of a content scan `{found, matches, preview}` (the JS field
`matches` is called `lineMatches` here because `matches` is reserved). -/
structure ScanResult where
  found : Bool
  lineMatches : List MatchLine
  preview : String
deriving DecidableEq

/-- Collect matching lines: index `i` is 0-based, entries are 1-based;
`budget` counts down from 5 (`if (matchingLines.length >= 5) break`). -/
def collectMatches (queryLower : String) : List String → Nat → Nat → List MatchLine
  | [], _, _ => []
  | _, _, 0 => []
  | line :: rest, i, b + 1 =>
    if containsB (lowerStr line) queryLower then
      { lineNumber := i + 1, content := strTake 300 (trimStr line) } ::
        collectMatches queryLower rest (i + 1) b
    else collectMatches queryLower rest (i + 1) (b + 1)

def scanContent (query content : String) : ScanResult :=
  let queryLower := lowerStr query
  if containsB (lowerStr content) queryLower then
    let lines := splitLines content
    let matchingLines := collectMatches queryLower lines 0 5
    { found := true,
      lineMatches := matchingLines,
      preview := strTake 200 ((matchingLines.head?.map (·.content)).getD "") }
  else { found := false, lineMatches := [], preview := "" }

/-! ## Tool dispatchers

`handleToolOD` / `handleToolSP` model the body of the `CallToolRequestSchema`
handler (`index.js` lines 195-228, SharePoint variant lines 164-196): a
`switch` over the tool name inside a `try`; the `default` branch throws
`Unknown tool: <name>` from inside the same `try`.  `dispatchOD` /
`dispatchSP` add the `catch`, which converts any thrown error into
`{content:[...{text: "Error: " + message}], isError: true}`.

The post-guard body of each network-performing handler is abstracted as an
environment `env : String → Except String Reply` mapping the tool name to the
outcome of its HTTP interaction; this quantifies over every possible upstream
behaviour.  `set_site_url` performs no network call and is embedded fully. -/

/-- Tool names registered by the OneDrive variant. -/
def odToolNames : List String :=
  ["authenticate_sharepoint", "search_my_files", "list_my_files", "get_file_content",
   "inspect_file_metadata", "list_recent_files", "list_shared_files"]

/-- OneDrive-variant tools whose handlers start with `ensureAuthenticated`
(every tool except the auth tool). -/
def odGuardedTools : List String :=
  ["search_my_files", "list_my_files", "get_file_content",
   "inspect_file_metadata", "list_recent_files", "list_shared_files"]

def handleToolOD (st : TokenState) (now : Int) (env : String → Except String Reply)
    (name : String) : Except String Reply :=
  match name with
  | "authenticate_sharepoint" => env name
  | "search_my_files" => do ensureAuthenticated st now; env name
  | "list_my_files" => do ensureAuthenticated st now; env name
  | "get_file_content" => do ensureAuthenticated st now; env name
  | "inspect_file_metadata" => do ensureAuthenticated st now; env name
  | "list_recent_files" => do ensureAuthenticated st now; env name
  | "list_shared_files" => do ensureAuthenticated st now; env name
  | _ => .error ("Unknown tool: " ++ name)

def dispatchOD (st : TokenState) (now : Int) (env : String → Except String Reply)
    (name : String) : Reply :=
  match handleToolOD st now env name with
  | .ok r => r
  | .error e => { text := "Error: " ++ e, isError := true }

/-- Tool names registered by the SharePoint variant. -/
def spToolNames : List String :=
  ["authenticate_sharepoint", "set_site_url", "search_files", "get_folder_structure",
   "get_file_content", "list_recent_files"]

/-- SharePoint-variant tools whose handlers start with `ensureAuthenticated`.
Note: `set_site_url` is NOT among them — its handler performs no guard. -/
def spGuardedTools : List String :=
  ["search_files", "get_folder_structure", "get_file_content", "list_recent_files"]

def handleToolSP (st : TokenState) (now : Int) (env : String → Except String Reply)
    (name : String) (argSiteUrl : String) : Except String (Reply × TokenState) :=
  match name with
  | "authenticate_sharepoint" => (env name).map fun r => (r, st)
  | "set_site_url" => setSiteUrl st argSiteUrl
  | "search_files" => do
      ensureAuthenticated st now
      ensureSiteUrl st
      (env name).map fun r => (r, st)
  | "get_folder_structure" => do
      ensureAuthenticated st now
      ensureSiteUrl st
      (env name).map fun r => (r, st)
  | "get_file_content" => do
      ensureAuthenticated st now
      (env name).map fun r => (r, st)
  | "list_recent_files" => do
      ensureAuthenticated st now
      ensureSiteUrl st
      (env name).map fun r => (r, st)
  | _ => .error ("Unknown tool: " ++ name)

def dispatchSP (st : TokenState) (now : Int) (env : String → Except String Reply)
    (name : String) (argSiteUrl : String) : Reply × TokenState :=
  match handleToolSP st now env name argSiteUrl with
  | .ok rs => rs
  | .error e => ({ text := "Error: " ++ e, isError := true }, st)

/-! ## Auth parameter resolution (claim C8)

OneDrive variant (`index.js` lines 12-15, 231-234):
`const clientId = args.clientId?.trim() || DEFAULT_CLIENT_ID;` — an omitted,
empty or all-whitespace argument falls back to the default, and a provided
argument is trimmed.

SharePoint variant (lines 199-200): `const { clientId, tenantId, redirectUri =
"http://localhost:3000/callback" } = args;` — no default substitution for
`clientId`/`tenantId` (the input schema marks both as required). -/

def DEFAULT_CLIENT_ID : String := "14d82eec-204b-4c2f-b7e8-296a70dab67e"

def DEFAULT_TENANT_ID : String := "common"

def effectiveClientIdOD (clientId : Option String) : String :=
  match clientId with
  | none => DEFAULT_CLIENT_ID
  | some s => if trimStr s = "" then DEFAULT_CLIENT_ID else trimStr s

def effectiveTenantIdOD (tenantId : Option String) : String :=
  match tenantId with
  | none => DEFAULT_TENANT_ID
  | some s => if trimStr s = "" then DEFAULT_TENANT_ID else trimStr s

/-- Arguments of the SharePoint-variant `authenticate_sharepoint` tool. -/
structure AuthArgsSP where
  clientId : Option String
  tenantId : Option String
  redirectUri : Option String
deriving DecidableEq

/-- The destructuring at the top of the SharePoint-variant
`authenticateSharePoint`: `clientId` and `tenantId` are used verbatim (no
default), `redirectUri` defaults to the localhost callback. -/
def resolveAuthArgsSP (a : AuthArgsSP) : Option String × Option String × String :=
  (a.clientId, a.tenantId, a.redirectUri.getD "http://localhost:3000/callback")

/-- Required properties of the SharePoint-variant auth tool input schema
(variant source lines 47-65). -/
def spAuthRequiredParams : List String := ["clientId", "tenantId"]

/-! ## Device-code polling loop (`index.js` lines 290-359, claim C7)

The loop body sleeps `interval` seconds, then POSTs to the token endpoint.
Time is modelled as advancing exactly by the sleeps (network time idealised to
zero): an iteration entered at time `now` polls at `now + interval*1000`.
`env i` is the response to the `i`-th poll.  An unrecognised error code is
rethrown by the JS (`throw pollError`), modelled as an error tagged with the
code.  `fuel` bounds the number of polls; the theorems below show any
`fuel ≥ pollUntil - now` is enough, matching the JS loop, which always
terminates because each iteration advances real time by at least the
(positive) interval. -/

inductive PollResult where
  | success (accessToken refreshToken : String) (expiresIn : Nat)
  | failure (code : String)
deriving DecidableEq

def pollLoop (env : Nat → PollResult) (pollUntil interval : Nat) (st : TokenState) :
    Nat → Nat → Nat → Option (Except String TokenState)
  | fuel, i, now =>
    if now < pollUntil then
      match fuel with
      | 0 => none
      | fuel + 1 =>
        let tPoll := now + interval * 1000
        match env i with
        | .success a r e =>
          some (.ok { st with
            accessToken := some a,
            refreshToken := some r,
            expiresAt := some ((tPoll : Int) + (e : Int) * 1000) })
        | .failure code =>
          if code = "authorization_pending" then
            pollLoop env pollUntil interval st fuel (i + 1) tPoll
          else if code = "slow_down" then
            pollLoop env pollUntil interval st fuel (i + 1) (tPoll + interval * 1000)
          else if code = "authorization_declined" then
            some (.error "Authentication was declined by user")
          else if code = "expired_token" then
            some (.error "Authentication code expired. Please try again.")
          else
            some (.error ("poll error: " ++ code))
    else
      some (.error "Authentication timeout - please try again")

/-- A poll response drawn from the device-code protocol set. -/
def ProtocolResult : PollResult → Prop
  | .success _ _ _ => True
  | .failure code =>
    code = "authorization_pending" ∨ code = "slow_down" ∨
    code = "authorization_declined" ∨ code = "expired_token"

/-! ## Recursive drive enumeration (`getAllFilesRecursively`,
`index.js` lines 697-746, claim C4)

`drive id` is the children listing of folder `id` (`none` models a failed
`axios.get`, whose error is swallowed and the folder skipped).  `fuel` bounds
the number of `while` iterations; every stated property holds for all fuel. -/

structure GafState where
  queue : List String
  processed : List String
  files : List Item
deriving DecidableEq

/-- The `for (const item of items)` body, with the `break` after the file push
that reaches the cap. -/
def processItems (maxFiles : Nat) : GafState → List Item → GafState
  | s, [] => s
  | s, item :: rest =>
    if s.processed.contains item.id then processItems maxFiles s rest
    else
      let s1 : GafState := { s with processed := item.id :: s.processed }
      if item.isFolder then
        if shouldSkipFile item.name "" then processItems maxFiles s1 rest
        else processItems maxFiles { s1 with queue := s1.queue ++ [item.id] } rest
      else
        let s2 : GafState := { s1 with files := s1.files ++ [item] }
        if maxFiles ≤ s2.files.length then s2
        else processItems maxFiles s2 rest

/-- The `while (foldersToProcess.length > 0 && allFiles.length < maxFiles)`
loop: pop the queue head, fetch its children (a failed fetch skips the
folder), process the items. -/
def gafLoop (drive : String → Option (List Item)) (maxFiles : Nat) :
    Nat → GafState → List Item
  | 0, s => s.files
  | fuel + 1, s =>
    match s.queue with
    | [] => s.files
    | cur :: rest =>
      if maxFiles ≤ s.files.length then s.files
      else
        match drive cur with
        | none => gafLoop drive maxFiles fuel { s with queue := rest }
        | some items =>
          gafLoop drive maxFiles fuel (processItems maxFiles { s with queue := rest } items)

def getAllFilesRecursively (drive : String → Option (List Item))
    (folderId : String) (maxFiles : Nat) (fuel : Nat) : List Item :=
  gafLoop drive maxFiles fuel { queue := [folderId], processed := [], files := [] }

/-! ## Folder structure (`getFolderStructure`, SharePoint variant
lines 409-520, claim C9)

`fdrive path` is the children listing of the relative path `path` (the site
and drive resolution and the per-request bearer token are network concerns
outside the recursion).  `getFolders(path, currentDepth)` returns `null` when
`currentDepth > depth`; for a child folder it recurses only when
`currentDepth < depth` and otherwise records `children = null`; a child file
is recorded with name/size/lastModified.  The recursion is driven by the
structurally decreasing quantity `depth + 1 - currentDepth`, which is exactly
the number of levels the JS recursion still descends. -/

inductive FItem where
  | folderI (name : String) (childCount : Nat)
  | fileI (name : String) (size : Nat) (lastModified : String)
deriving DecidableEq

inductive Node where
  | folderN (name : String) (itemCount : Nat) (children : Option (List Node))
  | fileN (name : String) (size : Nat) (lastModified : String)

/-- Child path construction: `path ? path + "/" + item.name : item.name`. -/
def childPath (path name : String) : String :=
  if path = "" then name else path ++ "/" ++ name

def getFoldersGo (fdrive : String → List FItem) (depth : Nat) :
    Nat → String → Nat → Option (List Node)
  | 0, _, _ => none
  | r + 1, path, currentDepth =>
    if depth < currentDepth then none
    else
      some ((fdrive path).map fun it =>
        match it with
        | .folderI nm cnt =>
          Node.folderN nm cnt
            (if currentDepth < depth then
              getFoldersGo fdrive depth r (childPath path nm) (currentDepth + 1)
            else none)
        | .fileI nm sz lm => Node.fileN nm sz lm)

def getFolders (fdrive : String → List FItem) (depth : Nat)
    (path : String) (currentDepth : Nat) : Option (List Node) :=
  getFoldersGo fdrive depth (depth + 1 - currentDepth) path currentDepth

/-- `const structure = await getFolders(folderPath, 1);` with
`const { folderPath = "", depth = 2 } = args;` — the depth argument is used
as given, with no clamping. -/
def getFolderStructure (fdrive : String → List FItem) (depth : Nat)
    (folderPath : String) : Option (List Node) :=
  getFolders fdrive depth folderPath 1

/-- Specification predicate for claim C9: `levelOk fdrive rem path ns` states
that `ns` mirrors the children of `path`, with every folder node carrying a
fetched child list for `rem` more levels and `children = none` at `rem = 0`,
and every file node carrying the item name, size and last-modified time. -/
def levelOk (fdrive : String → List FItem) : Nat → String → List Node → Prop
  | 0, path, ns =>
    List.Forall₂ (fun it n =>
      match it with
      | FItem.folderI nm cnt => n = Node.folderN nm cnt none
      | FItem.fileI nm sz lm => n = Node.fileN nm sz lm) (fdrive path) ns
  | rem + 1, path, ns =>
    List.Forall₂ (fun it n =>
      match it with
      | FItem.folderI nm cnt => ∃ cs, n = Node.folderN nm cnt (some cs) ∧
          levelOk fdrive rem (childPath path nm) cs
      | FItem.fileI nm sz lm => n = Node.fileN nm sz lm) (fdrive path) ns

/-! ## Content analysis search (`searchWithContentAnalysis`,
`index.js` lines 748-962, claim C10)

Abstracted network inputs:
  * `drive`, `gafFuel` — feed the internal `getAllFilesRecursively` call;
  * `contentFetch f` — the text obtained for file `f` by
    `searchFileContent` (download or Office extraction); `none` models a
    failed/empty fetch, which the JS reports as `{found: false}`;
  * `sharedFiles` — the `sharedWithMe` listing used by the shared phase. -/

structure SearchResult where
  id : String
  name : String
  path : String
  webUrl : String
  size : Nat
  lastModified : Option String
  author : Option String
  itemType : String
  source : String
  matchType : String
  contentMatches : List MatchLine
  preview : String
  relevanceScore : Option Nat
  driveId : Option String
  sharedBy : Option String
deriving DecidableEq

/-- A `sharedWithMe` entry: the item plus its `remoteItem` fields. -/
structure SharedItem where
  item : Item
  remoteId : Option String
  remoteDriveId : Option String
  remoteIsFolder : Bool
  remoteWebUrl : Option String
  remoteAuthor : Option String
deriving DecidableEq

/-- The content-match outcome the JS obtains from `searchFileContent`. -/
def contentMatchOf (contentFetch : Item → Option String) (query : String)
    (file : Item) : ScanResult :=
  match contentFetch file with
  | some c => scanContent query c
  | none => { found := false, lineMatches := [], preview := "" }

/-- High-relevance pass: `if (allResults.length >= maxResults) break;` at the
top; content is searched for every searchable file; a result is pushed on a
filename or content match. -/
def highPass (contentFetch : Item → Option String) (fileTypes : Option (List String))
    (query : String) (maxResults : Nat) :
    List (Item × Nat) → List SearchResult → List SearchResult
  | [], acc => acc
  | (file, score) :: rest, acc =>
    if maxResults ≤ acc.length then acc
    else
      let fileName := file.name
      let queryLower := lowerStr query
      let nameMatch := containsB (lowerStr fileName) queryLower
      let contentMatch : Option ScanResult :=
        if isSearchableFile fileName fileTypes then
          some (contentMatchOf contentFetch query file)
        else none
      if nameMatch || (contentMatch.map (·.found)).getD false then
        let res : SearchResult :=
          { id := file.id, name := fileName, path := constructFullPath file,
            webUrl := file.webUrl, size := file.size,
            lastModified := file.lastModifiedDateTime, author := file.author,
            itemType := "file", source := "myDrive",
            matchType :=
              if nameMatch && ((contentMatch.map (·.found)).getD false) then "both"
              else if nameMatch then "filename" else "content",
            contentMatches := (contentMatch.map (·.lineMatches)).getD [],
            preview := (contentMatch.map (·.preview)).getD "",
            relevanceScore := some score, driveId := file.driveId,
            sharedBy := none }
        highPass contentFetch fileTypes query maxResults rest (acc ++ [res])
      else highPass contentFetch fileTypes query maxResults rest acc

/-- Low-relevance pass: runs while `i < min(200, lowRelevanceFiles.length)`
and `allResults.length < maxResults`; only content matches are pushed, with
`relevanceScore: 0`. -/
def lowPass (contentFetch : Item → Option String) (fileTypes : Option (List String))
    (query : String) (maxResults : Nat) :
    Nat → List Item → List SearchResult → List SearchResult
  | _, [], acc => acc
  | 0, _ :: _, acc => acc
  | b + 1, file :: rest, acc =>
    if maxResults ≤ acc.length then acc
    else
      if isSearchableFile file.name fileTypes then
        let contentMatch := contentMatchOf contentFetch query file
        if contentMatch.found then
          let res : SearchResult :=
            { id := file.id, name := file.name, path := constructFullPath file,
              webUrl := file.webUrl, size := file.size,
              lastModified := file.lastModifiedDateTime, author := file.author,
              itemType := "file", source := "myDrive", matchType := "content",
              contentMatches := contentMatch.lineMatches,
              preview := contentMatch.preview,
              relevanceScore := some 0, driveId := file.driveId,
              sharedBy := none }
          lowPass contentFetch fileTypes query maxResults b rest (acc ++ [res])
        else lowPass contentFetch fileTypes query maxResults b rest acc
      else lowPass contentFetch fileTypes query maxResults b rest acc

/-- Shared-file phase: skips folders, pushes on a name or content match, and
breaks immediately after the push that reaches `maxResults` (there is no
top-of-loop guard in this phase). -/
def sharedPass (contentFetch : Item → Option String) (fileTypes : Option (List String))
    (query : String) (maxResults : Nat) :
    List SharedItem → List SearchResult → List SearchResult
  | [], acc => acc
  | it :: rest, acc =>
    if it.item.isFolder || it.remoteIsFolder then
      sharedPass contentFetch fileTypes query maxResults rest acc
    else
      let fileName := it.item.name
      let fileId := (it.remoteId.getD it.item.id)
      let queryLower := lowerStr query
      let nameMatch := containsB (lowerStr fileName) queryLower
      let contentMatch : Option ScanResult :=
        if isSearchableFile fileName fileTypes then
          some (contentMatchOf contentFetch query it.item)
        else none
      if nameMatch || (contentMatch.map (·.found)).getD false then
        let res : SearchResult :=
          { id := fileId, name := fileName,
            path := constructFullPath it.item,
            webUrl := it.remoteWebUrl.getD it.item.webUrl,
            size := it.item.size,
            lastModified := it.item.lastModifiedDateTime,
            author := it.remoteAuthor,
            itemType := "file", source := "sharedWithMe",
            matchType :=
              if nameMatch && ((contentMatch.map (·.found)).getD false) then "both"
              else if nameMatch then "filename" else "content",
            contentMatches := (contentMatch.map (·.lineMatches)).getD [],
            preview := (contentMatch.map (·.preview)).getD "",
            relevanceScore := none, driveId := it.remoteDriveId,
            sharedBy := it.remoteAuthor }
        let acc1 := acc ++ [res]
        if maxResults ≤ acc1.length then acc1
        else sharedPass contentFetch fileTypes query maxResults rest acc1
      else sharedPass contentFetch fileTypes query maxResults rest acc

/-- Stable descending insertion modelling the stable JS
`sort((a, b) => b.score - a.score)`. -/
def insertScored (x : Item × Nat) : List (Item × Nat) → List (Item × Nat)
  | [] => [x]
  | y :: ys => if y.2 < x.2 then x :: y :: ys else y :: insertScored x ys

def sortScored : List (Item × Nat) → List (Item × Nat)
  | [] => []
  | x :: xs => insertScored x (sortScored xs)

def searchWithContentAnalysis (drive : String → Option (List Item)) (gafFuel : Nat)
    (contentFetch : Item → Option String) (sharedFiles : List SharedItem)
    (parseTime : String → Int) (now : Int)
    (query : String) (maxResults : Nat) (includeShared : Bool)
    (fileTypes : Option (List String)) : List SearchResult :=
  let files := getAllFilesRecursively drive "root" 5000 gafFuel
  let files := files.filter fun f =>
    !f.isFolder && !shouldSkipFile f.name (constructFullPath f)
  let scoredFiles := files.map fun f => (f, getFileRelevanceScore parseTime now f query)
  let scoredFiles := sortScored scoredFiles
  let highRelevanceFiles := scoredFiles.filter fun sf => 0 < sf.2
  let lowRelevanceFiles := scoredFiles.filter fun sf => sf.2 == 0
  let r1 := highPass contentFetch fileTypes query maxResults highRelevanceFiles []
  let r2 :=
    if r1.length < maxResults && !lowRelevanceFiles.isEmpty then
      lowPass contentFetch fileTypes query maxResults 200
        (lowRelevanceFiles.map (·.1)) r1
    else r1
  if includeShared && r2.length < maxResults then
    sharedPass contentFetch fileTypes query maxResults sharedFiles r2
  else r2

/-! ## Match-strength predicates used to state claim C2 -/

/-- The query words of length `> 2` (lower-cased). -/
def queryWords (query : String) : List String :=
  (splitWs (lowerStr query)).filter fun w => 2 < w.length

/-- The file name equals the query (case-insensitively). -/
def ExactNameMatch (file : Item) (query : String) : Prop :=
  lowerStr file.name = lowerStr query

/-- The full path contains the query but the file name matches nothing. -/
def PathOnlyMatch (file : Item) (query : String) : Prop :=
  lowerStr file.name ≠ lowerStr query ∧
  containsB (lowerStr file.name) (lowerStr query) = false ∧
  (∀ w ∈ queryWords query, containsB (lowerStr file.name) w = false) ∧
  containsB (lowerStr (constructFullPath file)) (lowerStr query) = true

/-- Neither the file name nor the path matches the query in any way. -/
def NoNameOrPathMatch (file : Item) (query : String) : Prop :=
  lowerStr file.name ≠ lowerStr query ∧
  containsB (lowerStr file.name) (lowerStr query) = false ∧
  (∀ w ∈ queryWords query, containsB (lowerStr file.name) w = false) ∧
  containsB (lowerStr (constructFullPath file)) (lowerStr query) = false

/-! ## Concrete fixtures used by witnesses and counterexamples -/

/-- A drive with a single file at the root. -/
def fileDriveFix : String → List FItem := fun p =>
  if p = "" then [FItem.fileI "a.txt" 3 "t"] else []

/-- A chain of six nested folders, used to observe traversal depth 6. -/
def chainDriveFix : String → List FItem := fun p =>
  if p = "" then [FItem.folderI "d1" 1]
  else if p = "d1" then [FItem.folderI "d2" 1]
  else if p = "d1/d2" then [FItem.folderI "d3" 1]
  else if p = "d1/d2/d3" then [FItem.folderI "d4" 1]
  else if p = "d1/d2/d3/d4" then [FItem.folderI "d5" 1]
  else if p = "d1/d2/d3/d4/d5" then [FItem.folderI "d6" 1]
  else []

/-- A two-folder OneDrive fixture: a root file, a subfolder with one file. -/
def smallDriveFix : String → Option (List Item) := fun p =>
  if p = "root" then
    some [{ id := "f1", name := "report.txt" }, { id := "dir1", name := "sub", isFolder := true }]
  else if p = "dir1" then some [{ id := "f2", name := "notes.md" }]
  else none

/-- Content oracle for `smallDriveFix`: only `notes.md` has text. -/
def smallContentFix : Item → Option String := fun f =>
  if f.id == "f2" then some "quarterly report summary" else none

/-- Poll responses: one `slow_down`, then success. -/
def pollEnvFix : Nat → PollResult := fun j =>
  if j = 0 then .failure "slow_down" else .success "A" "R" 3600

end SharePointMCP

namespace SharePointMCP

/-! # Theorems -/

/-! ## Generic helper lemmas -/

theorem strTake_length_le (n : Nat) (s : String) : (strTake n s).length ≤ n := by
  simp only [strTake, String.length, List.length_take]
  omega

theorem ensureAuthenticated_noToken (st : TokenState) (now : Int)
    (h : tokenFalsy st.accessToken = true) :
    ensureAuthenticated st now =
      .error "Not authenticated. Please run \x27authenticate_sharepoint\x27 first." := by
  simp [ensureAuthenticated, h]

theorem ensureAuthenticated_expired (st : TokenState) (now : Int) (a : String) (t : Int)
    (ha : st.accessToken = some a) (hne : a ≠ "") (ht : st.expiresAt = some t)
    (hle : t ≤ now) :
    ensureAuthenticated st now = .error "Access token expired. Please re-authenticate." := by
  have hfalsy : tokenFalsy st.accessToken = false := by
    rw [ha]; simpa [tokenFalsy] using hne
  simp [ensureAuthenticated, hfalsy, ht, hle]

/-! ## Claim C6 — `set_site_url` validation and verbatim round-trip -/

/-- Claim C6: for every input string `siteUrl`, `set_site_url` fails with the
invalid-URL error if `siteUrl` does not start with `https://` or does not
contain `.sharepoint.com`, leaving the stored site URL unchanged; otherwise
it stores `siteUrl` verbatim, so the stored value equals the input exactly. -/
theorem setSiteUrl_validates_and_roundtrips (st : TokenState) (siteUrl : String) :
    ((startsWithB siteUrl "https://" = false ∨ containsB siteUrl ".sharepoint.com" = false) →
      setSiteUrl st siteUrl =
        .error "Invalid SharePoint URL. Expected format: https://yourtenant.sharepoint.com/sites/yoursite" ∧
      ∀ (now : Int) (env : String → Except String Reply),
        (dispatchSP st now env "set_site_url" siteUrl).2 = st) ∧
    (startsWithB siteUrl "https://" = true → containsB siteUrl ".sharepoint.com" = true →
      setSiteUrl st siteUrl =
        .ok ({ text := "SharePoint site URL set to: " ++ siteUrl, isError := false },
             { st with siteUrl := some siteUrl })) := by
  constructor
  · intro h
    have herr : setSiteUrl st siteUrl =
        .error "Invalid SharePoint URL. Expected format: https://yourtenant.sharepoint.com/sites/yoursite" := by
      rcases h with h | h <;> simp [setSiteUrl, h]
    refine ⟨herr, fun now env => ?_⟩
    simp [dispatchSP, handleToolSP, herr]
  · intro h1 h2
    simp [setSiteUrl, h1, h2]

/-- Witness for C6 at concrete inputs: a plain-HTTP URL is rejected and a
well-formed SharePoint URL is stored verbatim. -/
theorem setSiteUrl_validates_and_roundtrips_witness :
    setSiteUrl {} "http://x.sharepoint.com" =
      .error "Invalid SharePoint URL. Expected format: https://yourtenant.sharepoint.com/sites/yoursite" ∧
    setSiteUrl {} "https://t.sharepoint.com/sites/s" =
      .ok ({ text := "SharePoint site URL set to: https://t.sharepoint.com/sites/s", isError := false },
           { siteUrl := some "https://t.sharepoint.com/sites/s" }) :=
  ⟨((setSiteUrl_validates_and_roundtrips {} "http://x.sharepoint.com").1
      (Or.inl (by decide))).1,
   (setSiteUrl_validates_and_roundtrips {} "https://t.sharepoint.com/sites/s").2
      (by decide) (by decide)⟩

/-! ## Claim C2 — relevance scoring -/

/-- Counterexample to claim C2 as stated: a file whose name and path match
nothing, modified at the current instant, receives the cumulative recency
bonus `5 + 10 = 15`, contradicting the claimed bound of `≤ 10` for a
pure-recency match (the two recency bonuses are cumulative, not exclusive). -/
theorem score_pure_recency_not_le_10 :
    getFileRelevanceScore (fun _ => 0) 0
      { name := "zzz", lastModifiedDateTime := some "2026-01-01T00:00:00Z" } "report" = 15 ∧
    ¬(15 : Nat) ≤ 10 := by
  constructor
  · rfl
  · decide

/-- Claim C2 (amended): the relevance score is the sum of +100 for an exact
(case-insensitive) filename match, +50 if the filename contains the full
query, +10 per query word of length > 2 contained in the filename, +20 if the
full path contains the query, and a cumulative recency bonus of +5 for
modification within 30 days plus a further +10 within 7 days (so up to 15,
not 10). Consequently an exact match scores ≥ 100, a path-substring-only
match scores in [20, 35], a pure-recency match scores ≤ 15, and descending
score still ranks exact > path-only > recency-only. -/
theorem score_decomposition_and_ordering (parseTime : String → Int) (now : Int)
    (file : Item) (query : String) :
    (getFileRelevanceScore parseTime now file query =
      (if lowerStr file.name = lowerStr query then 100 else 0) +
      (if containsB (lowerStr file.name) (lowerStr query) then 50 else 0) +
      10 * ((queryWords query).filter fun w => containsB (lowerStr file.name) w).length +
      (if containsB (lowerStr (constructFullPath file)) (lowerStr query) then 20 else 0) +
      recencyBonus parseTime now file.lastModifiedDateTime) ∧
    recencyBonus parseTime now file.lastModifiedDateTime ≤ 15 ∧
    (ExactNameMatch file query → 100 ≤ getFileRelevanceScore parseTime now file query) ∧
    (PathOnlyMatch file query →
      20 ≤ getFileRelevanceScore parseTime now file query ∧
      getFileRelevanceScore parseTime now file query ≤ 35) ∧
    (NoNameOrPathMatch file query → getFileRelevanceScore parseTime now file query ≤ 15) ∧
    (∀ f1 f2 f3 : Item, ExactNameMatch f1 query → PathOnlyMatch f2 query →
      NoNameOrPathMatch f3 query →
      getFileRelevanceScore parseTime now f2 query < getFileRelevanceScore parseTime now f1 query ∧
      getFileRelevanceScore parseTime now f3 query < getFileRelevanceScore parseTime now f2 query) := by
  have hrec : ∀ lm, recencyBonus parseTime now lm ≤ 15 := by
    intro lm
    cases lm with
    | none => simp [recencyBonus]
    | some s =>
      simp only [recencyBonus]
      split_ifs <;> omega
  have hdecomp : ∀ f : Item, getFileRelevanceScore parseTime now f query =
      (if lowerStr f.name = lowerStr query then 100 else 0) +
      (if containsB (lowerStr f.name) (lowerStr query) then 50 else 0) +
      10 * ((queryWords query).filter fun w => containsB (lowerStr f.name) w).length +
      (if containsB (lowerStr (constructFullPath f)) (lowerStr query) then 20 else 0) +
      recencyBonus parseTime now f.lastModifiedDateTime := by
    intro f
    simp only [getFileRelevanceScore, queryWords]
  have hexact : ∀ f : Item, ExactNameMatch f query →
      100 ≤ getFileRelevanceScore parseTime now f query := by
    intro f hf
    have hf' : lowerStr f.name = lowerStr query := hf
    rw [hdecomp f, if_pos hf']
    omega
  have hpath : ∀ f : Item, PathOnlyMatch f query →
      20 ≤ getFileRelevanceScore parseTime now f query ∧
      getFileRelevanceScore parseTime now f query ≤ 35 := by
    intro f hf
    obtain ⟨h1, h2, h3, h4⟩ := hf
    have hw : ((queryWords query).filter fun w => containsB (lowerStr f.name) w) = [] := by
      refine List.filter_eq_nil_iff.mpr ?_
      intro w hw
      simp [h3 w hw]
    have hb := hrec f.lastModifiedDateTime
    constructor <;>
      · rw [hdecomp f, if_neg h1, hw]
        simp only [h2, h4, List.length_nil, Nat.mul_zero, Bool.false_eq_true,
          if_false, if_true]
        omega
  have hnone : ∀ f : Item, NoNameOrPathMatch f query →
      getFileRelevanceScore parseTime now f query ≤ 15 := by
    intro f hf
    obtain ⟨h1, h2, h3, h4⟩ := hf
    have hw : ((queryWords query).filter fun w => containsB (lowerStr f.name) w) = [] := by
      refine List.filter_eq_nil_iff.mpr ?_
      intro w hw
      simp [h3 w hw]
    have hb := hrec f.lastModifiedDateTime
    rw [hdecomp f, if_neg h1, hw]
    simp only [h2, h4, List.length_nil, Nat.mul_zero, Bool.false_eq_true,
      if_false, if_true]
    omega
  refine ⟨hdecomp file, hrec _, hexact file, hpath file, hnone file, ?_⟩
  intro f1 f2 f3 h1 h2 h3
  have e1 := hexact f1 h1
  have e2 := hpath f2 h2
  have e3 := hnone f3 h3
  omega

/-- Witness for the amended C2 at concrete inputs: `report.txt` (exact match
up to case), a file inside a `reports` folder with an unrelated name, and an
unrelated recently-modified file, all for query `report`. -/
theorem score_decomposition_and_ordering_witness :
    ExactNameMatch { name := "Report" } "report" ∧
    PathOnlyMatch { name := "zzz", parentPath := some "/drive/root:/reports" } "report" ∧
    NoNameOrPathMatch { name := "zzz", lastModifiedDateTime := some "x" } "report" ∧
    getFileRelevanceScore (fun _ => 0) 0
        { name := "zzz", parentPath := some "/drive/root:/reports" } "report" <
      getFileRelevanceScore (fun _ => 0) 0 { name := "Report" } "report" ∧
    getFileRelevanceScore (fun _ => 0) 0 { name := "zzz", lastModifiedDateTime := some "x" } "report" <
      getFileRelevanceScore (fun _ => 0) 0
        { name := "zzz", parentPath := some "/drive/root:/reports" } "report" := by
  have h1 : ExactNameMatch { name := "Report" } "report" := by
    unfold ExactNameMatch; decide
  have h2 : PathOnlyMatch { name := "zzz", parentPath := some "/drive/root:/reports" } "report" := by
    unfold PathOnlyMatch
    refine ⟨by decide, by decide, by decide, by decide⟩
  have h3 : NoNameOrPathMatch { name := "zzz", lastModifiedDateTime := some "x" } "report" := by
    unfold NoNameOrPathMatch
    refine ⟨by decide, by decide, by decide, by decide⟩
  exact ⟨h1, h2, h3,
    ((score_decomposition_and_ordering (fun _ => 0) 0 { name := "Report" } "report").2.2.2.2.2
      { name := "Report" } { name := "zzz", parentPath := some "/drive/root:/reports" }
      { name := "zzz", lastModifiedDateTime := some "x" } h1 h2 h3).1,
    ((score_decomposition_and_ordering (fun _ => 0) 0 { name := "Report" } "report").2.2.2.2.2
      { name := "Report" } { name := "zzz", parentPath := some "/drive/root:/reports" }
      { name := "zzz", lastModifiedDateTime := some "x" } h1 h2 h3).2⟩

/-! ## Claim C8 — default client/tenant substitution -/

/-- Counterexample to claim C8 as stated: in the redirect (SharePoint)
variant, an omitted `clientId` stays absent — no public testing client id is
substituted (the variant even marks `clientId`/`tenantId` as required inputs);
only the device-code (OneDrive) variant substitutes the defaults. -/
theorem redirect_variant_no_default_client :
    (resolveAuthArgsSP { clientId := none, tenantId := none, redirectUri := none }).1 = none ∧
    (none : Option String) ≠ some DEFAULT_CLIENT_ID ∧
    "clientId" ∈ spAuthRequiredParams ∧
    effectiveClientIdOD none = DEFAULT_CLIENT_ID := by
  refine ⟨rfl, by decide, by decide, rfl⟩

/-- Claim C8 (amended): in the device-code variant, `clientId` and `tenantId`
are optional; when omitted (or blank after trimming) the flow substitutes the
fixed public testing client id and the multi-tenant `common` value, and a
provided value is used trimmed. In the redirect variant the two arguments are
required and used verbatim, with no default substitution. -/
theorem auth_defaults_device_code_only :
    effectiveClientIdOD none = DEFAULT_CLIENT_ID ∧
    effectiveTenantIdOD none = DEFAULT_TENANT_ID ∧
    (∀ s : String, trimStr s = "" →
      effectiveClientIdOD (some s) = DEFAULT_CLIENT_ID ∧
      effectiveTenantIdOD (some s) = DEFAULT_TENANT_ID) ∧
    (∀ s : String, trimStr s ≠ "" →
      effectiveClientIdOD (some s) = trimStr s ∧
      effectiveTenantIdOD (some s) = trimStr s) ∧
    (∀ a : AuthArgsSP, (resolveAuthArgsSP a).1 = a.clientId ∧
      (resolveAuthArgsSP a).2.1 = a.tenantId) := by
  refine ⟨rfl, rfl, ?_, ?_, ?_⟩
  · intro s hs
    exact ⟨by simp [effectiveClientIdOD, hs], by simp [effectiveTenantIdOD, hs]⟩
  · intro s hs
    exact ⟨by simp [effectiveClientIdOD, hs], by simp [effectiveTenantIdOD, hs]⟩
  · intro a
    exact ⟨rfl, rfl⟩

/-- Witness for the amended C8: blank and non-blank arguments at concrete
values, and a concrete redirect-variant argument record. -/
theorem auth_defaults_device_code_only_witness :
    trimStr "   " = "" ∧
    effectiveClientIdOD (some "   ") = DEFAULT_CLIENT_ID ∧
    trimStr " abc " ≠ "" ∧
    effectiveClientIdOD (some " abc ") = trimStr " abc " ∧
    (resolveAuthArgsSP { clientId := some "x", tenantId := some "y", redirectUri := none }).1 =
      some "x" :=
  ⟨by decide,
   (auth_defaults_device_code_only.2.2.1 "   " (by decide)).1,
   by decide,
   (auth_defaults_device_code_only.2.2.2.1 " abc " (by decide)).1,
   (auth_defaults_device_code_only.2.2.2.2
      { clientId := some "x", tenantId := some "y", redirectUri := none }).1⟩

/-! ## Claim C5 — the dispatcher catch -/

/-- Counterexample to claim C5 as stated: a fully unrecognized tool name does
NOT raise outside the catch of the dispatcher — the `Unknown tool` error is thrown
from the `default` branch of the `switch`, which sits inside the same `try`,
so the very same catch converts it into a structured error-flagged reply. -/
theorem unknown_tool_converted_by_catch :
    handleToolOD {} 0 (fun _ => .error "irrelevant") "nonexistent_tool" =
      .error "Unknown tool: nonexistent_tool" ∧
    dispatchOD {} 0 (fun _ => .error "irrelevant") "nonexistent_tool" =
      { text := "Error: Unknown tool: nonexistent_tool", isError := true } := by
  exact ⟨rfl, rfl⟩

/-- Claim C5 (amended): for every inbound tool call, the dispatcher catches
any exception thrown by a handler — including the `Unknown tool` error for
unrecognized names, which is thrown inside the same try block — and converts
it into a structured reply carrying the error message and `isError = true`;
no hard failure propagates to the host. -/
theorem dispatcher_converts_all_errors (st : TokenState) (now : Int)
    (env envSP : String → Except String Reply) (argSiteUrl : String) :
    (∀ name e, handleToolOD st now env name = .error e →
      dispatchOD st now env name = { text := "Error: " ++ e, isError := true }) ∧
    (∀ name, name ∉ odToolNames →
      dispatchOD st now env name =
        { text := "Error: Unknown tool: " ++ name, isError := true }) ∧
    (∀ name e, handleToolSP st now envSP name argSiteUrl = .error e →
      dispatchSP st now envSP name argSiteUrl =
        ({ text := "Error: " ++ e, isError := true }, st)) ∧
    (∀ name, name ∉ spToolNames →
      dispatchSP st now envSP name argSiteUrl =
        ({ text := "Error: Unknown tool: " ++ name, isError := true }, st)) := by
  have hod : ∀ name, name ∉ odToolNames →
      handleToolOD st now env name = .error ("Unknown tool: " ++ name) := by
    intro name h
    unfold handleToolOD
    split
    · exact absurd (by decide) h
    · exact absurd (by decide) h
    · exact absurd (by decide) h
    · exact absurd (by decide) h
    · exact absurd (by decide) h
    · exact absurd (by decide) h
    · exact absurd (by decide) h
    · rfl
  have hsp : ∀ name, name ∉ spToolNames →
      handleToolSP st now envSP name argSiteUrl = .error ("Unknown tool: " ++ name) := by
    intro name h
    unfold handleToolSP
    split
    · exact absurd (by decide) h
    · exact absurd (by decide) h
    · exact absurd (by decide) h
    · exact absurd (by decide) h
    · exact absurd (by decide) h
    · exact absurd (by decide) h
    · rfl
  refine ⟨?_, ?_, ?_, ?_⟩
  · intro name e he
    simp [dispatchOD, he]
  · intro name h
    simp only [dispatchOD, hod name h]
    rw [← String.append_assoc]
    rfl
  · intro name e he
    simp [dispatchSP, he]
  · intro name h
    simp only [dispatchSP, hsp name h]
    rw [← String.append_assoc]
    rfl

/-- Witness for the amended C5: a concrete handler error and a concrete
unknown tool name are both converted into structured error replies. -/
theorem dispatcher_converts_all_errors_witness :
    handleToolOD {} 0 (fun _ => .error "boom") "list_my_files" = .error "boom" ∨
    (dispatchOD {} 0 (fun _ => .error "boom") "bogus" =
      { text := "Error: Unknown tool: bogus", isError := true } ∧
     dispatchSP {} 0 (fun _ => .error "boom") "bogus" "u" =
      ({ text := "Error: Unknown tool: bogus", isError := true }, {})) :=
  Or.inr
    ⟨(dispatcher_converts_all_errors {} 0 (fun _ => .error "boom")
        (fun _ => .error "boom") "u").2.1 "bogus" (by decide),
     (dispatcher_converts_all_errors {} 0 (fun _ => .error "boom")
        (fun _ => .error "boom") "u").2.2.2 "bogus" (by decide)⟩

/-! ## Claim C1 — authentication guard before every tool -/

/-- Counterexample to claim C1 as stated: in the SharePoint variant,
`set_site_url` performs no authentication check at all — with no access token
stored, the call executes its operation, stores the URL, and returns a
non-error reply that does not mention authentication. -/
theorem set_site_url_unguarded :
    tokenFalsy (TokenState.accessToken {}) = true ∧
    (dispatchSP {} 0 (fun _ => .error "net down") "set_site_url"
        "https://t.sharepoint.com/sites/s").1.isError = false ∧
    containsB (dispatchSP {} 0 (fun _ => .error "net down") "set_site_url"
        "https://t.sharepoint.com/sites/s").1.text "Not authenticated" = false ∧
    (dispatchSP {} 0 (fun _ => .error "net down") "set_site_url"
        "https://t.sharepoint.com/sites/s").2.siteUrl =
      some "https://t.sharepoint.com/sites/s" := by
  refine ⟨rfl, rfl, by decide, rfl⟩

/-- Claim C1 (amended): for every tool other than the auth tool — and, in the
SharePoint variant, also other than `set_site_url`, whose handler performs no
guard — if no access token is stored (or it is the empty string), the call
does not execute its operation and yields an error-flagged reply containing
`Not authenticated`; if a token is stored but `expiresAt ≤ now`, the reply is
error-flagged and contains `expired`. This holds for every environment, i.e.
independently of any network interaction the handler body could perform. -/
theorem guarded_tools_require_auth (st : TokenState) (now : Int)
    (env envSP : String → Except String Reply) (argSiteUrl : String) :
    (∀ name ∈ odGuardedTools,
      (tokenFalsy st.accessToken = true →
        (dispatchOD st now env name).isError = true ∧
        containsB (dispatchOD st now env name).text "Not authenticated" = true) ∧
      (∀ (a : String) (t : Int), st.accessToken = some a → a ≠ "" →
        st.expiresAt = some t → t ≤ now →
        (dispatchOD st now env name).isError = true ∧
        containsB (dispatchOD st now env name).text "expired" = true)) ∧
    (∀ name ∈ spGuardedTools,
      (tokenFalsy st.accessToken = true →
        (dispatchSP st now envSP name argSiteUrl).1.isError = true ∧
        containsB (dispatchSP st now envSP name argSiteUrl).1.text "Not authenticated" = true) ∧
      (∀ (a : String) (t : Int), st.accessToken = some a → a ≠ "" →
        st.expiresAt = some t → t ≤ now →
        (dispatchSP st now envSP name argSiteUrl).1.isError = true ∧
        containsB (dispatchSP st now envSP name argSiteUrl).1.text "expired" = true)) := by
  constructor
  · intro name hmem
    have hname : name = "search_my_files" ∨ name = "list_my_files" ∨
        name = "get_file_content" ∨ name = "inspect_file_metadata" ∨
        name = "list_recent_files" ∨ name = "list_shared_files" := by
      simpa [odGuardedTools] using hmem
    constructor
    · intro hf
      have hauth := ensureAuthenticated_noToken st now hf
      rcases hname with rfl | rfl | rfl | rfl | rfl | rfl <;>
        · constructor <;>
            (simp [dispatchOD, handleToolOD, hauth, Bind.bind, Except.bind]; all_goals decide)
    · intro a t ha hne ht hle
      have hauth := ensureAuthenticated_expired st now a t ha hne ht hle
      rcases hname with rfl | rfl | rfl | rfl | rfl | rfl <;>
        · constructor <;>
            (simp [dispatchOD, handleToolOD, hauth, Bind.bind, Except.bind]; all_goals decide)
  · intro name hmem
    have hname : name = "search_files" ∨ name = "get_folder_structure" ∨
        name = "get_file_content" ∨ name = "list_recent_files" := by
      simpa [spGuardedTools] using hmem
    constructor
    · intro hf
      have hauth := ensureAuthenticated_noToken st now hf
      rcases hname with rfl | rfl | rfl | rfl <;>
        · constructor <;>
            (simp [dispatchSP, handleToolSP, hauth, Bind.bind, Except.bind]; all_goals decide)
    · intro a t ha hne ht hle
      have hauth := ensureAuthenticated_expired st now a t ha hne ht hle
      rcases hname with rfl | rfl | rfl | rfl <;>
        · constructor <;>
            (simp [dispatchSP, handleToolSP, hauth, Bind.bind, Except.bind]; all_goals decide)

/-- Witness for the amended C1 at concrete inputs: with an empty token store,
`search_my_files` is rejected with `Not authenticated`; with a token whose
expiry is in the past, `list_recent_files` (SharePoint variant) is rejected
with `expired` — for a concrete environment that would otherwise succeed. -/
theorem guarded_tools_require_auth_witness :
    ("search_my_files" ∈ odGuardedTools ∧
      containsB (dispatchOD {} 0 (fun _ => .ok { text := "body", isError := false })
        "search_my_files").text "Not authenticated" = true) ∧
    ("list_recent_files" ∈ spGuardedTools ∧
      containsB (dispatchSP { accessToken := some "tok", expiresAt := some 5 } 10
        (fun _ => .ok { text := "body", isError := false }) "list_recent_files" "u").1.text
        "expired" = true) :=
  ⟨⟨by decide,
    ((guarded_tools_require_auth {} 0
        (fun _ => .ok { text := "body", isError := false })
        (fun _ => .ok { text := "body", isError := false }) "u").1
      "search_my_files" (by decide)).1 (by decide) |>.2⟩,
   ⟨by decide,
    ((guarded_tools_require_auth { accessToken := some "tok", expiresAt := some 5 } 10
        (fun _ => .ok { text := "body", isError := false })
        (fun _ => .ok { text := "body", isError := false }) "u").2
      "list_recent_files" (by decide)).2 "tok" 5 rfl (by decide) rfl (by decide) |>.2⟩⟩

/-! ## Claim C3 — content scan -/

theorem collectMatches_length_le (ql : String) :
    ∀ (lines : List String) (i b : Nat), (collectMatches ql lines i b).length ≤ b := by
  intro lines
  induction lines with
  | nil => intro i b; simp [collectMatches]
  | cons line rest ih =>
    intro i b
    cases b with
    | zero => simp [collectMatches]
    | succ b =>
      simp only [collectMatches]
      split
      · simpa using ih (i + 1) b
      · exact ih (i + 1) (b + 1)

theorem collectMatches_mem (ql : String) :
    ∀ (lines : List String) (i b : Nat) (m : MatchLine),
      m ∈ collectMatches ql lines i b →
      i < m.lineNumber ∧ m.content.length ≤ 300 := by
  intro lines
  induction lines with
  | nil => intro i b m hm; simp [collectMatches] at hm
  | cons line rest ih =>
    intro i b m hm
    cases b with
    | zero => simp [collectMatches] at hm
    | succ b =>
      simp only [collectMatches] at hm
      split at hm
      · rcases List.mem_cons.mp hm with rfl | hm'
        · exact ⟨Nat.lt_succ_self i, strTake_length_le 300 (trimStr line)⟩
        · have := ih (i + 1) b m hm'
          exact ⟨Nat.lt_of_succ_lt this.1, this.2⟩
      · have := ih (i + 1) (b + 1) m hm
        exact ⟨Nat.lt_of_succ_lt this.1, this.2⟩

/-- Claim C3: the content scan is a case-insensitive substring search: the
`found` flag equals the case-insensitive containment test; on a hit the match
list has at most 5 entries, each with a 1-based line number and a snippet of
at most 300 characters; the preview is the at-most-200-character prefix of
the snippet of the first match; and when the query does not occur
case-insensitively, the result is `found = false`. -/
theorem scanContent_spec (query content : String) :
    (scanContent query content).found = containsB (lowerStr content) (lowerStr query) ∧
    (scanContent query content).lineMatches.length ≤ 5 ∧
    (∀ m ∈ (scanContent query content).lineMatches,
      1 ≤ m.lineNumber ∧ m.content.length ≤ 300) ∧
    (∀ m, (scanContent query content).lineMatches.head? = some m →
      (scanContent query content).preview = strTake 200 m.content) ∧
    (containsB (lowerStr content) (lowerStr query) = false →
      (scanContent query content).found = false) := by
  by_cases hocc : containsB (lowerStr content) (lowerStr query) = true
  · have hsc : scanContent query content =
        { found := true,
          lineMatches := collectMatches (lowerStr query) (splitLines content) 0 5,
          preview := strTake 200
            (((collectMatches (lowerStr query) (splitLines content) 0 5).head?.map
              (·.content)).getD "") } := by
      simp [scanContent, hocc]
    rw [hsc]
    refine ⟨by simp [hocc], collectMatches_length_le _ _ 0 5, ?_, ?_, ?_⟩
    · intro m hm
      have := collectMatches_mem _ _ 0 5 m hm
      exact ⟨this.1, this.2⟩
    · intro m hm
      simp only at hm ⊢
      rw [hm]
      simp
    · intro hno
      rw [hocc] at hno
      cases hno
  · have hocc' : containsB (lowerStr content) (lowerStr query) = false := by
      simpa using hocc
    have hsc : scanContent query content =
        { found := false, lineMatches := [], preview := "" } := by
      simp [scanContent, hocc']
    rw [hsc]
    refine ⟨by simp [hocc'], by simp, by simp, ?_, fun _ => rfl⟩
    intro m hm
    simp at hm

/-- Witness for C3 at a concrete query and content: mixed-case query found on
two of the lines, first-match preview as specified. -/
theorem scanContent_spec_witness :
    (scanContent "repORT" "alpha\nquarterly Report summary\nreport line2").found =
      containsB (lowerStr "alpha\nquarterly Report summary\nreport line2")
        (lowerStr "repORT") ∧
    (scanContent "repORT" "alpha\nquarterly Report summary\nreport line2").preview =
      strTake 200 "quarterly Report summary" ∧
    containsB (lowerStr "zz") (lowerStr "repORT") = false ∧
    (scanContent "repORT" "zz").found = false :=
  ⟨(scanContent_spec "repORT" "alpha\nquarterly Report summary\nreport line2").1,
   (scanContent_spec "repORT" "alpha\nquarterly Report summary\nreport line2").2.2.2.1
     { lineNumber := 2, content := "quarterly Report summary" } (by decide),
   by decide,
   (scanContent_spec "repORT" "zz").2.2.2.2 (by decide)⟩

/-! ## Claim C4 — bounded, deduplicated drive enumeration -/

theorem processItems_spec (maxFiles : Nat) :
    ∀ (items : List Item) (s : GafState),
      s.files.length < maxFiles →
      (s.files.map Item.id).Nodup →
      (∀ f ∈ s.files, f.id ∈ s.processed) →
      (processItems maxFiles s items).files.length ≤ maxFiles ∧
      ((processItems maxFiles s items).files.map Item.id).Nodup ∧
      (∀ f ∈ (processItems maxFiles s items).files,
        f.id ∈ (processItems maxFiles s items).processed) := by
  intro items
  induction items with
  | nil =>
    intro s hlt hnd hsub
    exact ⟨Nat.le_of_lt hlt, hnd, hsub⟩
  | cons item rest ih =>
    intro s hlt hnd hsub
    simp only [processItems]
    by_cases hc : s.processed.contains item.id
    · rw [if_pos hc]
      exact ih s hlt hnd hsub
    · rw [if_neg hc]
      have hnotmem : item.id ∉ s.processed := by
        intro hmem
        exact hc (List.elem_eq_true_of_mem hmem)
      by_cases hfold : item.isFolder
      · rw [if_pos hfold]
        by_cases hskip : shouldSkipFile item.name "" = true
        · rw [if_pos hskip]
          exact ih _ hlt hnd (fun f hf => List.mem_cons_of_mem _ (hsub f hf))
        · rw [if_neg hskip]
          exact ih _ hlt hnd (fun f hf => List.mem_cons_of_mem _ (hsub f hf))
      · rw [if_neg hfold]
        have hidnew : item.id ∉ s.files.map Item.id := by
          intro hmem
          rcases List.mem_map.mp hmem with ⟨f, hf, hfid⟩
          exact hnotmem (hfid ▸ hsub f hf)
        have hdisj : ∀ x ∈ s.files, ¬x.id = item.id := by
          intro x hx heq
          exact hidnew (heq ▸ List.mem_map_of_mem Item.id hx)
        have hnd' : ((s.files ++ [item]).map Item.id).Nodup := by
          simpa [List.map_append, List.nodup_append] using ⟨hnd, hdisj⟩
        have hsub' : ∀ f ∈ s.files ++ [item], f.id ∈ item.id :: s.processed := by
          intro f hf
          rcases List.mem_append.mp hf with hf | hf
          · exact List.mem_cons_of_mem _ (hsub f hf)
          · simp at hf
            subst hf
            exact List.mem_cons_self _ _
        have hlen : (s.files ++ [item]).length ≤ maxFiles := by
          simpa using hlt
        by_cases hcap : maxFiles ≤ (s.files ++ [item]).length
        · rw [if_pos hcap]
          exact ⟨hlen, hnd', hsub'⟩
        · rw [if_neg hcap]
          exact ih _ (Nat.lt_of_not_le hcap) hnd' hsub'

theorem gafLoop_spec (drive : String → Option (List Item)) (maxFiles : Nat) :
    ∀ (fuel : Nat) (s : GafState),
      s.files.length ≤ maxFiles →
      (s.files.map Item.id).Nodup →
      (∀ f ∈ s.files, f.id ∈ s.processed) →
      (gafLoop drive maxFiles fuel s).length ≤ maxFiles ∧
      ((gafLoop drive maxFiles fuel s).map Item.id).Nodup := by
  intro fuel
  induction fuel with
  | zero =>
    intro s hle hnd hsub
    exact ⟨hle, hnd⟩
  | succ fuel ih =>
    intro s hle hnd hsub
    simp only [gafLoop]
    cases hq : s.queue with
    | nil => exact ⟨hle, hnd⟩
    | cons cur rest =>
      dsimp only
      by_cases hcap : maxFiles ≤ s.files.length
      · rw [if_pos hcap]
        exact ⟨hle, hnd⟩
      · rw [if_neg hcap]
        have hlt : s.files.length < maxFiles := Nat.lt_of_not_le hcap
        cases hd : drive cur with
        | none => exact ih _ hle hnd hsub
        | some items =>
          have hp := processItems_spec maxFiles items { s with queue := rest } hlt hnd hsub
          exact ih _ hp.1 hp.2.1 hp.2.2

theorem gafLoop_stops_at_cap (drive : String → Option (List Item)) (maxFiles : Nat) :
    ∀ (fuel : Nat) (s : GafState), maxFiles ≤ s.files.length →
      gafLoop drive maxFiles fuel s = s.files := by
  intro fuel s hcap
  cases fuel with
  | zero => rfl
  | succ fuel =>
    simp only [gafLoop]
    cases s.queue with
    | nil => rfl
    | cons cur rest =>
      dsimp only
      rw [if_pos hcap]

/-- Claim C4: the recursive drive enumeration processes no item id twice (the
returned files carry pairwise distinct ids), stops as soon as the accumulated
file count reaches the cap even with unexplored folders still queued, and
therefore never returns more than 5000 files — for every drive and every
iteration budget. -/
theorem getAllFilesRecursively_bounded (drive : String → Option (List Item)) (fuel : Nat) :
    (getAllFilesRecursively drive "root" 5000 fuel).length ≤ 5000 ∧
    ((getAllFilesRecursively drive "root" 5000 fuel).map Item.id).Nodup ∧
    (∀ (maxFiles : Nat) (s : GafState), maxFiles ≤ s.files.length →
      gafLoop drive maxFiles fuel s = s.files) := by
  have h := gafLoop_spec drive 5000 fuel
    { queue := ["root"], processed := [], files := [] }
    (by simp) (by simp) (by simp)
  exact ⟨h.1, h.2, fun m s => gafLoop_stops_at_cap drive m fuel s⟩

/-- Witness for C4: the two-folder fixture drive, including the early-stop
equation applied to a queue that still holds an unexplored folder while the
file list has already reached the cap. -/
theorem getAllFilesRecursively_bounded_witness :
    (getAllFilesRecursively smallDriveFix "root" 5000 10).length ≤ 5000 ∧
    gafLoop smallDriveFix 1 10
        { queue := ["dir1"], processed := ["f1"], files := [{ id := "f1" }] } =
      [{ id := "f1" }] :=
  ⟨(getAllFilesRecursively_bounded smallDriveFix 10).1,
   (getAllFilesRecursively_bounded smallDriveFix 10).2.2 1
     { queue := ["dir1"], processed := ["f1"], files := [{ id := "f1" }] } (by decide)⟩

/-! ## Claim C7 — device-code polling loop -/

/-- Claim C7: when every poll response is drawn from the device-code protocol
set, the polling loop terminates in exactly one of three ways — success (the
tokens are stored in the token state), a fatal error code
(`authorization_declined` / `expired_token`) surfacing the corresponding
error, or the timeout error once `expires_in` elapses — for any iteration
budget covering the polling window.  The transient codes
`authorization_pending` and `slow_down` never surface an error: they continue
the loop, with `authorization_pending` advancing time by one interval between
polls and `slow_down` advancing it by two intervals (the wait before the next
poll is doubled). -/
theorem pollLoop_trichotomy_and_transients (env : Nat → PollResult)
    (pollUntil interval : Nat) (st : TokenState)
    (hint : 1 ≤ interval) (henv : ∀ j, ProtocolResult (env j)) :
    (∀ (fuel i now : Nat), pollUntil ≤ now + fuel →
      ∃ res, pollLoop env pollUntil interval st fuel i now = some res ∧
        ((∃ a r t, res = Except.ok ({ st with
            accessToken := some a,
            refreshToken := some r,
            expiresAt := some t } : TokenState)) ∨
         res = .error "Authentication was declined by user" ∨
         res = .error "Authentication code expired. Please try again." ∨
         res = .error "Authentication timeout - please try again")) ∧
    (∀ (fuel i now : Nat), now < pollUntil → env i = .failure "authorization_pending" →
      pollLoop env pollUntil interval st (fuel + 1) i now =
        pollLoop env pollUntil interval st fuel (i + 1) (now + interval * 1000)) ∧
    (∀ (fuel i now : Nat), now < pollUntil → env i = .failure "slow_down" →
      pollLoop env pollUntil interval st (fuel + 1) i now =
        pollLoop env pollUntil interval st fuel (i + 1)
          (now + interval * 1000 + interval * 1000)) := by
  refine ⟨?_, ?_, ?_⟩
  · intro fuel
    induction fuel with
    | zero =>
      intro i now hcov
      have hge : ¬ now < pollUntil := by omega
      refine ⟨.error "Authentication timeout - please try again", ?_, by simp⟩
      simp [pollLoop, hge]
    | succ fuel ih =>
      intro i now hcov
      by_cases hlt : now < pollUntil
      · have hstep : 1000 ≤ interval * 1000 := by
          calc 1000 = 1 * 1000 := by omega
          _ ≤ interval * 1000 := Nat.mul_le_mul_right 1000 hint
        cases henvi : env i with
        | success a r e =>
          refine ⟨Except.ok ({ st with
            accessToken := some a,
            refreshToken := some r,
            expiresAt := some ((((now + interval * 1000) : Nat) : Int) + (e : Int) * 1000) } :
              TokenState), ?_, Or.inl ⟨a, r, _, rfl⟩⟩
          simp [pollLoop, hlt, henvi]
        | failure code =>
          have hcode := henv i
          rw [henvi] at hcode
          rcases hcode with hc | hc | hc | hc
          · subst hc
            obtain ⟨res, hres, hshape⟩ := ih (i + 1) (now + interval * 1000) (by omega)
            refine ⟨res, ?_, hshape⟩
            rw [show pollLoop env pollUntil interval st (fuel + 1) i now =
                pollLoop env pollUntil interval st fuel (i + 1) (now + interval * 1000) from ?_]
            · exact hres
            · simp [pollLoop, hlt, henvi]
          · subst hc
            obtain ⟨res, hres, hshape⟩ := ih (i + 1) (now + interval * 1000 + interval * 1000)
              (by omega)
            refine ⟨res, ?_, hshape⟩
            rw [show pollLoop env pollUntil interval st (fuel + 1) i now =
                pollLoop env pollUntil interval st fuel (i + 1)
                  (now + interval * 1000 + interval * 1000) from ?_]
            · exact hres
            · simp [pollLoop, hlt, henvi]
          · subst hc
            refine ⟨.error "Authentication was declined by user", ?_, by simp⟩
            simp [pollLoop, hlt, henvi]
          · subst hc
            refine ⟨.error "Authentication code expired. Please try again.", ?_, by simp⟩
            simp [pollLoop, hlt, henvi]
      · refine ⟨.error "Authentication timeout - please try again", ?_, by simp⟩
        simp [pollLoop, hlt]
  · intro fuel i now hlt henvi
    simp [pollLoop, hlt, henvi]
  · intro fuel i now hlt henvi
    simp [pollLoop, hlt, henvi]

/-- Witness for C7: the fixture response stream (`slow_down`, then success)
with interval 5s and a 60s window: the loop succeeds and stores the tokens,
and the `slow_down` step doubled the wait (the second poll happens at
15000ms, two intervals after the first at 5000ms). -/
theorem pollLoop_trichotomy_and_transients_witness :
    (1 ≤ 5 ∧ ∃ res, pollLoop pollEnvFix 60000 5 {} 60000 0 0 = some res ∧
      ((∃ a r t, res = Except.ok ({
          accessToken := some a,
          refreshToken := some r,
          expiresAt := some t,
          siteUrl := none } : TokenState)) ∨
       res = .error "Authentication was declined by user" ∨
       res = .error "Authentication code expired. Please try again." ∨
       res = .error "Authentication timeout - please try again")) ∧
    pollLoop pollEnvFix 60000 5 {} 100 0 0 =
      pollLoop pollEnvFix 60000 5 {} 99 1 10000 := by
  have henv : ∀ j, ProtocolResult (pollEnvFix j) := by
    intro j
    by_cases hj : j = 0 <;> simp [pollEnvFix, hj, ProtocolResult]
  have h := pollLoop_trichotomy_and_transients pollEnvFix 60000 5 {} (by decide) henv
  refine ⟨⟨by decide, h.1 60000 0 0 (by decide)⟩, ?_⟩
  have hslow := h.2.2 99 0 0 (by decide) (by simp [pollEnvFix])
  simpa using hslow

/-! ## Claim C9 — folder structure traversal -/

theorem getFoldersGo_levelOk (fdrive : String → List FItem) (depth : Nat) :
    ∀ (r curr : Nat) (path : String), r = depth + 1 - curr → curr ≤ depth →
      ∃ ns, getFoldersGo fdrive depth r path curr = some ns ∧
        levelOk fdrive (depth - curr) path ns := by
  intro r
  induction r with
  | zero => intro curr path hr hle; omega
  | succ r ih =>
    intro curr path hr hle
    have hnlt : ¬ depth < curr := by omega
    have heq : getFoldersGo fdrive depth (r + 1) path curr =
        some ((fdrive path).map fun it =>
          match it with
          | .folderI nm cnt =>
            Node.folderN nm cnt
              (if curr < depth then
                getFoldersGo fdrive depth r (childPath path nm) (curr + 1)
              else none)
          | .fileI nm sz lm => Node.fileN nm sz lm) := by
      rw [getFoldersGo.eq_def]
      dsimp only
      rw [if_neg hnlt]
    refine ⟨_, heq, ?_⟩
    by_cases hlt : curr < depth
    · have hrem : depth - curr = (depth - (curr + 1)) + 1 := by omega
      rw [hrem]
      simp only [levelOk]
      rw [List.forall₂_map_right_iff]
      apply List.forall₂_same.mpr
      intro it hit
      cases it with
      | folderI nm cnt =>
        obtain ⟨cs, hcs, hok⟩ := ih (curr + 1) (childPath path nm) (by omega) (by omega)
        exact ⟨cs, by simp [hlt, hcs], hok⟩
      | fileI nm sz lm => simp
    · have hrem : depth - curr = 0 := by omega
      rw [hrem]
      simp only [levelOk]
      rw [List.forall₂_map_right_iff]
      apply List.forall₂_same.mpr
      intro it hit
      cases it with
      | folderI nm cnt => simp [hlt]
      | fileI nm sz lm => simp

/-- Counterexample to the bounded-depth part of claim C9: the depth parameter
is not clamped to 1–5. With depth 0, the top-level `getFolders(path, 1)` hits
the `currentDepth > depth` test immediately and yields no structure instead
of behaving like depth 1; and on a six-level folder chain the results for
depth 6 and depth 5 differ, so a depth above 5 is honoured rather than
clamped. -/
theorem depth_parameter_not_clamped :
    getFolderStructure fileDriveFix 0 "" = none ∧
    getFolderStructure fileDriveFix 1 "" = some [Node.fileN "a.txt" 3 "t"] ∧
    getFolderStructure chainDriveFix 6 "" ≠ getFolderStructure chainDriveFix 5 "" := by
  refine ⟨rfl, rfl, ?_⟩
  intro h
  simp only [getFolderStructure, getFolders, getFoldersGo, chainDriveFix, childPath] at h
  simp at h

/-- Claim C9 (amended): for every starting path and maximum depth ≥ 1 (the
1–5 range is documented in the tool schema but not enforced — the parameter
is used exactly as given), `getFolderStructure` fetches the children of the
path and recurses into a child folder only while the current depth is
strictly below the maximum; folders reached at the maximum depth are recorded
with `children = none`, and each child file is recorded with its name, size
and last-modified time.  A start beyond the maximum depth yields `none`. -/
theorem getFolderStructure_spec (fdrive : String → List FItem) (depth : Nat)
    (folderPath : String) :
    (1 ≤ depth →
      ∃ ns, getFolderStructure fdrive depth folderPath = some ns ∧
        levelOk fdrive (depth - 1) folderPath ns) ∧
    (∀ curr, depth < curr → getFolders fdrive depth folderPath curr = none) := by
  constructor
  · intro hdepth
    exact getFoldersGo_levelOk fdrive depth (depth + 1 - 1) 1 folderPath rfl hdepth
  · intro curr hcurr
    have hz : depth + 1 - curr = 0 := by omega
    simp only [getFolders, hz]
    rfl

/-- Witness for the amended C9: the chain fixture at depth 2 — the level-1
folder is fetched, the level-2 folder is recorded with `children = none`, and
a start depth of 3 yields `none`. -/
theorem getFolderStructure_spec_witness :
    (1 ≤ 2 ∧ ∃ ns, getFolderStructure chainDriveFix 2 "" = some ns ∧
      levelOk chainDriveFix 1 "" ns) ∧
    getFolders chainDriveFix 2 "" 3 = none :=
  ⟨⟨by decide, (getFolderStructure_spec chainDriveFix 2 "").1 (by decide)⟩,
   (getFolderStructure_spec chainDriveFix 2 "").2 3 (by decide)⟩

/-! ## Claim C10 — content search never over-delivers -/

theorem highPass_length_le (contentFetch : Item → Option String)
    (fileTypes : Option (List String)) (query : String) (maxResults : Nat) :
    ∀ (l : List (Item × Nat)) (acc : List SearchResult), acc.length ≤ maxResults →
      (highPass contentFetch fileTypes query maxResults l acc).length ≤ maxResults := by
  intro l
  induction l with
  | nil => intro acc hacc; simpa [highPass] using hacc
  | cons x rest ih =>
    intro acc hacc
    obtain ⟨file, score⟩ := x
    simp only [highPass]
    by_cases hcap : maxResults ≤ acc.length
    · rw [if_pos hcap]
      exact hacc
    · rw [if_neg hcap]
      split
      all_goals
        split
        · apply ih
          simp only [List.length_append, List.length_cons, List.length_nil]
          omega
        · exact ih acc hacc

theorem lowPass_length_le (contentFetch : Item → Option String)
    (fileTypes : Option (List String)) (query : String) (maxResults : Nat) :
    ∀ (l : List Item) (b : Nat) (acc : List SearchResult), acc.length ≤ maxResults →
      (lowPass contentFetch fileTypes query maxResults b l acc).length ≤ maxResults := by
  intro l
  induction l with
  | nil => intro b acc hacc; simpa [lowPass] using hacc
  | cons file rest ih =>
    intro b acc hacc
    cases b with
    | zero => simpa [lowPass] using hacc
    | succ b =>
      simp only [lowPass]
      by_cases hcap : maxResults ≤ acc.length
      · rw [if_pos hcap]
        exact hacc
      · rw [if_neg hcap]
        split
        · split
          · apply ih
            simp only [List.length_append, List.length_cons, List.length_nil]
            omega
          · exact ih b acc hacc
        · exact ih b acc hacc

theorem sharedPass_length_le (contentFetch : Item → Option String)
    (fileTypes : Option (List String)) (query : String) (maxResults : Nat) :
    ∀ (l : List SharedItem) (acc : List SearchResult), acc.length < maxResults →
      (sharedPass contentFetch fileTypes query maxResults l acc).length ≤ maxResults := by
  intro l
  induction l with
  | nil => intro acc hacc; simp only [sharedPass]; omega
  | cons it rest ih =>
    intro acc hacc
    simp only [sharedPass]
    split
    · exact ih acc hacc
    · split_ifs <;>
        first
          | exact ih acc hacc
          | (apply ih
             simp only [List.length_append, List.length_cons, List.length_nil] at *
             omega)
          | (simp only [List.length_append, List.length_cons, List.length_nil] at *
             omega)

/-- Claim C10: for every invocation of the content-analysis search with
`maxResults ≥ 1`, the returned list has length at most `maxResults`: the
high-relevance pass breaks once the bound is reached, the low-relevance pass
only iterates while the count is below the bound, and the shared-file phase
breaks immediately upon reaching it — for every drive, content oracle, shared
listing, clock and type filter. -/
theorem searchWithContentAnalysis_bounded (drive : String → Option (List Item))
    (gafFuel : Nat) (contentFetch : Item → Option String)
    (sharedFiles : List SharedItem) (parseTime : String → Int) (now : Int)
    (query : String) (maxResults : Nat) (includeShared : Bool)
    (fileTypes : Option (List String)) (_hmax : 1 ≤ maxResults) :
    (searchWithContentAnalysis drive gafFuel contentFetch sharedFiles parseTime now
      query maxResults includeShared fileTypes).length ≤ maxResults := by
  unfold searchWithContentAnalysis
  set files0 := getAllFilesRecursively drive "root" 5000 gafFuel with hfiles0
  set scored := sortScored ((files0.filter fun f =>
    !f.isFolder && !shouldSkipFile f.name (constructFullPath f)).map fun f =>
      (f, getFileRelevanceScore parseTime now f query)) with hscored
  set r1 := highPass contentFetch fileTypes query maxResults
    (scored.filter fun sf => 0 < sf.2) [] with hr1
  have hr1le : r1.length ≤ maxResults :=
    highPass_length_le contentFetch fileTypes query maxResults _ [] (by simp)
  set r2 := if r1.length < maxResults && !(scored.filter fun sf => sf.2 == 0).isEmpty then
    lowPass contentFetch fileTypes query maxResults 200
      ((scored.filter fun sf => sf.2 == 0).map (·.1)) r1
  else r1 with hr2
  have hr2le : r2.length ≤ maxResults := by
    rw [hr2]
    split
    · exact lowPass_length_le contentFetch fileTypes query maxResults _ 200 r1 hr1le
    · exact hr1le
  by_cases hsh : (includeShared && r2.length < maxResults) = true
  · rw [if_pos hsh]
    have hlt : r2.length < maxResults := by
      have := (Bool.and_eq_true _ _).mp hsh
      simpa using this.2
    exact sharedPass_length_le contentFetch fileTypes query maxResults sharedFiles r2 hlt
  · rw [if_neg hsh]
    exact hr2le

/-- Witness for C10: the two-folder fixture with `maxResults = 1` — both
fixture files match the query `report`, yet only one result is returned. -/
theorem searchWithContentAnalysis_bounded_witness :
    (1 : Nat) ≤ 1 ∧
    (searchWithContentAnalysis smallDriveFix 10 smallContentFix [] (fun _ => 0) 0
      "report" 1 false none).length ≤ 1 :=
  ⟨by decide,
   searchWithContentAnalysis_bounded smallDriveFix 10 smallContentFix [] (fun _ => 0) 0
     "report" 1 false none (by decide)⟩

end SharePointMCP
